import Mathlib

/-
Shallow embedding of the quote caching and provider-fallback core of
`src/app.py` (Flask quote server backed by akshare providers).

Modelling conventions:
* Python strings are `List Char` (`Sym`); table cell values are the ADT
  `Value` (numeric, string, or NaN — pandas cells).
* A pandas DataFrame keyed by a code column is an association list
  `List (Sym × Row)`; a row is an association list `List (String × Value)`
  from column name to value.
* An upstream akshare call either raises, returns `None`, or returns a
  table; this is `ProviderOutcome`.
* Wall-clock time is (ISO weekday 1..7, second-of-day); `is_trade_time`
  compares times of day exactly as the source's `<=` chain does.
* Module-level mutable globals (`etf_cache_df`, `stock_cache`) become an
  explicit `ServerState` threaded through the request handlers, and each
  handler additionally reports the list of upstream provider invocations
  it performed (its call trace), so that claims about "how many provider
  calls happen" are statable.
-/

namespace QuotesApi

/-- A pandas cell value: a number, a string, or NaN. -/
inductive Value where
  | num (q : ℚ)
  | str (s : String)
  | nan
deriving DecidableEq, Repr

/-- A Python string, as a list of characters. -/
abbrev Sym := List Char

/-- A table row: association list from column name to cell value. -/
abbrev Row := List (String × Value)

/-- A code-indexed DataFrame (the result of `set_index('代码')`). -/
abbrev Snapshot := List (Sym × Row)

/-- The per-symbol equity close-price cache `stock_cache`. -/
abbrev StockCache := List (Sym × Row)

/-- Outcome of one upstream akshare call: it may raise an exception,
return `None`, or return a table of rows of type `α`. -/
inductive ProviderOutcome (α : Type) where
  | raises (msg : String)
  | returns (v : Option (List α))

/-- Second-of-day for 09:25. -/
def t0925 : Nat := 9 * 3600 + 25 * 60

/-- Second-of-day for 11:31. -/
def t1131 : Nat := 11 * 3600 + 31 * 60

/-- Second-of-day for 12:55. -/
def t1255 : Nat := 12 * 3600 + 55 * 60

/-- Second-of-day for 15:01. -/
def t1501 : Nat := 15 * 3600 + 1 * 60

/-- Embeds `is_trade_time` of `src/app.py`: true when the ISO weekday is
1..5 and the time of day `t` (in seconds since midnight) satisfies
`09:25 <= t <= 11:31` or `12:55 <= t <= 15:01` — both comparisons in the
source are `<=` on `datetime.time` values, hence inclusive bounds. -/
def is_trade_time (isoweekday : Nat) (t : Nat) : Bool :=
  if 1 ≤ isoweekday ∧ isoweekday ≤ 5 then
    if (t0925 ≤ t ∧ t ≤ t1131) ∨ (t1255 ≤ t ∧ t ≤ t1501) then true
    else false
  else false

/-- Removes every non-overlapping occurrence of the two-character pattern
`a,b`, scanning left to right: the semantics of Python's
`str.replace(ab, '')` for a two-character pattern. -/
def removeSub2 (a b : Char) : List Char → List Char
  | [] => []
  | [c] => [c]
  | c :: d :: rest =>
    if c = a ∧ d = b then removeSub2 a b rest
    else c :: removeSub2 a b (d :: rest)

/-- ETF code-prefix test shared by both endpoints:
`startswith(('51', '56', '58', '15'))`. -/
def isEtfCode (code : Sym) : Bool :=
  ['5', '1'].isPrefixOf code || ['5', '6'].isPrefixOf code ||
  ['5', '8'].isPrefixOf code || ['1', '5'].isPrefixOf code

/-- `code_only` of `get_quotes`: `symbol.replace('sh', '').replace('sz', '')`. -/
def code_only_quotes (symbol : Sym) : Sym :=
  removeSub2 's' 'z' (removeSub2 's' 'h' symbol)

/-- `code_only` of `get_history`: `symbol[-6:]` (the last six characters,
or the whole string when shorter). -/
def code_only_history (symbol : Sym) : Sym :=
  symbol.drop (symbol.length - 6)

/-- Instrument classification used by the quote path: ETF iff the
stripped code has an ETF prefix. -/
def classify_quotes (symbol : Sym) : Bool :=
  isEtfCode (code_only_quotes symbol)

/-- Instrument classification used by the history path: ETF iff the last
six characters have an ETF prefix. -/
def classify_history (symbol : Sym) : Bool :=
  isEtfCode (code_only_history symbol)

/-! ## ETF cache refresh (`update_etf_cache`) -/

/-- Numeric value of a list of decimal digit characters. -/
def natFromDigits (cs : List Char) : Nat :=
  cs.foldl (fun n c => n * 10 + (c.toNat - 48)) 0

/-- Parses an unsigned decimal literal (`123`, `1.5`, `.5`, `3.`);
anything else — in particular a percentage string such as `1.23%` —
fails, as Python float parsing does. -/
def parseUnsignedDecimal (cs : List Char) : Option ℚ :=
  match cs.span (fun c => c != '.') with
  | (intPart, []) =>
    if intPart ≠ [] ∧ intPart.all Char.isDigit then
      some (natFromDigits intPart)
    else none
  | (intPart, _ :: fracPart) =>
    if (intPart ≠ [] ∨ fracPart ≠ []) ∧ intPart.all Char.isDigit ∧
        fracPart.all Char.isDigit then
      some ((natFromDigits intPart : ℚ) +
        (natFromDigits fracPart : ℚ) / (10 : ℚ) ^ fracPart.length)
    else none

/-- Parses an optionally signed decimal literal. -/
def parseDecimal (cs : List Char) : Option ℚ :=
  match cs with
  | '-' :: rest => (parseUnsignedDecimal rest).map (fun q => -q)
  | '+' :: rest => parseUnsignedDecimal rest
  | _ => parseUnsignedDecimal cs

/-- One cell under `pd.to_numeric(..., errors='coerce')`: numbers pass
through, parseable strings become numbers, anything else becomes NaN. -/
def to_numeric_coerce (v : Value) : Value :=
  match v with
  | .num q => .num q
  | .nan => .nan
  | .str s => match parseDecimal s.data with
    | some q => .num q
    | none => .nan

/-- A row of the primary provider `ak.fund_etf_spot_em()`: the `代码`
(code) column that becomes the index, and the remaining columns. -/
structure EmRow where
  code : Sym
  fields : Row
deriving DecidableEq

/-- A row of the secondary provider `ak.fund_etf_spot_ths()`, with the
columns read by the source: `基金代码` (fund code), `基金名称` (fund
name), `当前-单位净值` (current unit value), `增长率` (growth rate),
`增长值` (growth amount). -/
structure ThsRow where
  fund_code : Sym
  fund_name : Value
  current_unit_value : Value
  growth_rate : Value
  growth_value : Value
deriving DecidableEq

/-- The canonical column set `expected_cols` of `update_etf_cache`. -/
def expected_cols : List String :=
  ["名称", "最新价", "涨跌额", "涨跌幅", "开盘价", "最高价", "最低价",
   "昨收", "成交量", "成交额"]

/-- The columns built explicitly from a THS row before default-filling:
name, last price, change percent (numerically coerced), change amount. -/
def ths_base_row (r : ThsRow) : Row :=
  [("名称", r.fund_name), ("最新价", r.current_unit_value),
   ("涨跌幅", to_numeric_coerce r.growth_rate), ("涨跌额", r.growth_value)]

/-- The default-fill loop: every expected column missing from the row is
appended with value 0. -/
def fill_defaults (row : Row) : Row :=
  expected_cols.foldl
    (fun acc col =>
      if (acc.lookup col).isSome then acc else acc ++ [(col, Value.num 0)])
    row

/-- Standardization of the secondary provider's table: rename columns to
the primary's names, coerce the growth rate to a number, default-fill the
remaining canonical columns with 0, and index by fund code. -/
def standardize_ths (rows : List ThsRow) : Snapshot :=
  rows.map (fun r => (r.fund_code, fill_defaults (ths_base_row r)))

/-- The primary provider's table after `set_index('代码')`. -/
def em_snapshot (rows : List EmRow) : Snapshot :=
  rows.map (fun r => (r.code, r.fields))

/-- Identifies which upstream source an ETF refresh invoked. -/
inductive Source where
  | primaryEm
  | secondaryThs
deriving DecidableEq

/-- The secondary branch of `update_etf_cache`: a non-empty THS table is
standardized and becomes the new `temp_df`; a raise, a `None` or an empty
table leaves `temp_df` without a usable value. -/
def try_secondary (secondary : ProviderOutcome ThsRow) : Option Snapshot :=
  match secondary with
  | .returns (some rows) =>
    if rows.isEmpty then none else some (standardize_ths rows)
  | _ => none

/-- Embeds `update_etf_cache` of `src/app.py`, with the upstream calls it
makes as an explicit trace. The primary is always called; when it raises,
returns `None`, or returns an empty table, the secondary is called; the
cache is replaced exactly when a non-empty table was obtained, and is
left unchanged otherwise. -/
def update_etf_cache (primary : ProviderOutcome EmRow)
    (secondary : ProviderOutcome ThsRow) (cache : Option Snapshot) :
    Option Snapshot × List Source :=
  match primary with
  | .returns (some rows) =>
    if rows.isEmpty then
      match try_secondary secondary with
      | some snap => (some snap, [.primaryEm, .secondaryThs])
      | none => (cache, [.primaryEm, .secondaryThs])
    else (some (em_snapshot rows), [.primaryEm])
  | _ =>
    match try_secondary secondary with
    | some snap => (some snap, [.primaryEm, .secondaryThs])
    | none => (cache, [.primaryEm, .secondaryThs])

/-- True when one upstream ETF source call counts as unsuccessful: it
raised, returned `None`, or returned an empty table (the primary case). -/
def em_unsuccessful (p : ProviderOutcome EmRow) : Bool :=
  match p with
  | .returns (some rows) => rows.isEmpty
  | _ => true

/-- True when the secondary source call counts as unsuccessful. -/
def ths_unsuccessful (q : ProviderOutcome ThsRow) : Bool :=
  match q with
  | .returns (some rows) => rows.isEmpty
  | _ => true

/-! ## Quote requests (`get_quotes`) and shared server state -/

/-- The module-level mutable state of `src/app.py`: the ETF snapshot
`etf_cache_df` (possibly not yet populated) and the equity close-price
cache `stock_cache`. -/
structure ServerState where
  etf_cache_df : Option Snapshot
  stock_cache : StockCache
deriving DecidableEq

/-- The per-symbol entry put into the `results` dict: either a success
with the quote data, or an error with the exception's message. -/
inductive SymResult where
  | success (data : Row)
  | error (msg : String)
deriving DecidableEq

/-- Python dict assignment `stock_cache[symbol] = quote_data`: overwrite
in place when the key exists, append otherwise. -/
def storeQuote (m : StockCache) (k : Sym) (v : Row) : StockCache :=
  if (m.lookup k).isSome then
    m.map (fun p => if p.1 == k then (k, v) else p)
  else m ++ [(k, v)]

/-- Result of processing one symbol of a quote request: its `results`
entry, the server state afterwards, and the upstream equity fetches
performed (the symbols passed to `ak.stock_bid_ask_em`). -/
structure StepOut where
  res : SymResult
  st : ServerState
  calls : List Sym

/-- Embeds one iteration of the `for symbol in symbol_list` loop of
`get_quotes`: classify the symbol by its stripped code; serve ETF codes
from the snapshot copy (a missing code or an absent snapshot raises,
caught as a per-symbol error); serve equities from the close-price cache
when outside trading hours and cached, and otherwise fetch live with
`ak.stock_bid_ask_em(symbol)`, storing the result into the close-price
cache when outside trading hours. -/
def process_symbol (trade_time_now : Bool) (etf_copy : Option Snapshot)
    (fetch : Sym → ProviderOutcome (String × Value)) (st : ServerState)
    (symbol : Sym) : StepOut :=
  if isEtfCode (code_only_quotes symbol) then
    match etf_copy with
    | some snap =>
      match snap.lookup (code_only_quotes symbol) with
      | some row => ⟨.success row, st, []⟩
      | none => ⟨.error "在ETF缓存中未找到该代码", st, []⟩
    | none => ⟨.error "在ETF缓存中未找到该代码", st, []⟩
  else
    if trade_time_now = false ∧ (st.stock_cache.lookup symbol).isSome then
      ⟨.success ((st.stock_cache.lookup symbol).getD []), st, []⟩
    else
      match fetch symbol with
      | .raises msg => ⟨.error msg, st, [symbol]⟩
      | .returns none => ⟨.error "stock_bid_ask_em 返回空数据", st, [symbol]⟩
      | .returns (some rows) =>
        if rows.isEmpty then
          ⟨.error "stock_bid_ask_em 返回空数据", st, [symbol]⟩
        else
          if trade_time_now then ⟨.success rows, st, [symbol]⟩
          else
            ⟨.success rows,
             { st with
                stock_cache := storeQuote st.stock_cache symbol rows },
             [symbol]⟩

/-- Result of a whole quote request: the `results` entries in request
order, the server state afterwards, and all upstream equity fetches. -/
structure BatchOut where
  results : List (Sym × SymResult)
  st : ServerState
  calls : List Sym

/-- The `for symbol in symbol_list` loop of `get_quotes`, threading the
server state from one symbol to the next. -/
def get_quotes_go (trade_time_now : Bool) (etf_copy : Option Snapshot)
    (fetch : Sym → ProviderOutcome (String × Value)) :
    List Sym → ServerState → BatchOut
  | [], st => ⟨[], st, []⟩
  | s :: rest, st =>
    let step := process_symbol trade_time_now etf_copy fetch st s
    let b := get_quotes_go trade_time_now etf_copy fetch rest step.st
    ⟨(s, step.res) :: b.results, b.st, step.calls ++ b.calls⟩

/-- Embeds `get_quotes` of `src/app.py`: evaluate `is_trade_time` once
(passed here as `trade_time_now`), copy the ETF snapshot out under the
lock, then process every requested symbol in order. -/
def get_quotes (trade_time_now : Bool)
    (fetch : Sym → ProviderOutcome (String × Value)) (st : ServerState)
    (symbols : List Sym) : BatchOut :=
  get_quotes_go trade_time_now st.etf_cache_df fetch symbols st

/-- Embeds `clear_stock_cache`: drops the equity close-price cache. -/
def clear_stock_cache (st : ServerState) : ServerState :=
  { st with stock_cache := [] }

/-- The scheduled ETF refresh acting on the whole server state:
`update_etf_cache` touches only `etf_cache_df`. -/
def update_etf_cache_state (primary : ProviderOutcome EmRow)
    (secondary : ProviderOutcome ThsRow) (st : ServerState) : ServerState :=
  { st with
     etf_cache_df := (update_etf_cache primary secondary st.etf_cache_df).1 }

/-- A symbol is pending at its turn of the `get_quotes` loop when it is
not served from a cache: it is an equity (not an ETF code), and either
the request is inside trading hours or the symbol misses the current
close-price cache — the negation of the serve-from-cache condition at
`src/app.py:163`. -/
def is_pending (trade_time_now : Bool) (sc : StockCache) (s : Sym) : Bool :=
  !(classify_quotes s) && (trade_time_now || !((sc.lookup s).isSome))

/-- A stub equity provider that always returns one row. -/
def const_fetch : Sym → ProviderOutcome (String × Value) :=
  fun _ => .returns (some [("最新", Value.num 10)])

/-- A stub equity provider that always raises. -/
def raising_fetch : Sym → ProviderOutcome (String × Value) :=
  fun _ => .raises "unreachable"

/-! ## Helper lemmas -/

/-- An unsuccessful secondary call never yields a usable table. -/
lemma try_secondary_eq_none (q : ProviderOutcome ThsRow)
    (hq : ths_unsuccessful q = true) : try_secondary q = none := by
  cases q with
  | raises msg => rfl
  | returns v =>
    cases v with
    | none => rfl
    | some rows =>
      simp only [ths_unsuccessful] at hq
      simp [try_secondary, hq]

/-- A successful secondary call yields the standardized table. -/
lemma try_secondary_eq_some (rows : List ThsRow) (h : rows ≠ []) :
    try_secondary (.returns (some rows)) = some (standardize_ths rows) := by
  have : rows.isEmpty = false := by
    cases rows with
    | nil => exact absurd rfl h
    | cons a t => rfl
  simp [try_secondary, this]

/-! ## Claim theorems: trading-session clock -/

/-- Claim C3, counterexample: at 11:31:00 exactly on a Monday the code
returns true, while the claim's half-open morning window `[09:25, 11:31)`
(and its lunch-gap clause) says the answer must be false. -/
theorem c3_counterexample :
    is_trade_time 1 t1131 = true ∧
    ¬ ((t0925 ≤ t1131 ∧ t1131 < t1131) ∨
       (t1255 ≤ t1131 ∧ t1131 < t1501)) := by decide

/-- Claim C3 as amended: `is_trade_time` is true exactly for ISO
weekdays Monday(1)..Friday(5) with the time of day inside the closed
windows `[09:25, 11:31]` or `[12:55, 15:01]` — both endpoints inclusive,
since the source compares with `<=` on both sides. -/
theorem c3_trade_time_closed_windows (w t : Nat) :
    is_trade_time w t = true ↔
      ((1 ≤ w ∧ w ≤ 5) ∧
       ((t0925 ≤ t ∧ t ≤ t1131) ∨ (t1255 ≤ t ∧ t ≤ t1501))) := by
  by_cases h1 : 1 ≤ w ∧ w ≤ 5 <;>
    by_cases h2 : (t0925 ≤ t ∧ t ≤ t1131) ∨ (t1255 ≤ t ∧ t ≤ t1501) <;>
    simp [is_trade_time, h1, h2]

/-! ## Claim theorems: ETF refresh fallback -/

/-- Claim C2: when the primary source raises, returns `None` or returns
an empty table, and the secondary does likewise, `update_etf_cache`
leaves the previously cached snapshot unchanged. -/
theorem c2_all_sources_exhausted_keeps_cache
    (p : ProviderOutcome EmRow) (q : ProviderOutcome ThsRow)
    (cache : Option Snapshot)
    (hp : em_unsuccessful p = true) (hq : ths_unsuccessful q = true) :
    (update_etf_cache p q cache).1 = cache := by
  cases p with
  | raises msg => simp [update_etf_cache, try_secondary_eq_none q hq]
  | returns v =>
    cases v with
    | none => simp [update_etf_cache, try_secondary_eq_none q hq]
    | some rows =>
      simp only [em_unsuccessful] at hp
      simp [update_etf_cache, hp, try_secondary_eq_none q hq]

/-- Claim C2, witness: both sources fail on a populated cache and the
snapshot survives unchanged. -/
theorem c2_witness :
    em_unsuccessful (.raises "primary down") = true ∧
    ths_unsuccessful (.returns (some [])) = true ∧
    (update_etf_cache (.raises "primary down") (.returns (some []))
      (some [(['5', '1', '0', '0', '5', '0'], [("名称", .str "firstEtf")])])).1 =
      some [(['5', '1', '0', '0', '5', '0'], [("名称", .str "firstEtf")])] :=
  ⟨rfl, rfl,
   c2_all_sources_exhausted_keeps_cache _ _ _ rfl rfl⟩

/-- Claim C4: a primary source returning a non-empty table means the
secondary source is never invoked (the call trace is just the primary)
and the primary's table is installed; and the three unsuccessful primary
outcomes — raising, returning `None`, returning an empty table — make
`update_etf_cache` behave identically. -/
theorem c4_primary_short_circuit_and_uniform_fallback
    (rows : List EmRow) (q : ProviderOutcome ThsRow) (cache : Option Snapshot)
    (h : rows ≠ []) :
    (update_etf_cache (.returns (some rows)) q cache).2 = [Source.primaryEm] ∧
    (update_etf_cache (.returns (some rows)) q cache).1 =
      some (em_snapshot rows) ∧
    (∀ msg, update_etf_cache (.raises msg) q cache =
      update_etf_cache (.returns none) q cache) ∧
    update_etf_cache (.returns none) q cache =
      update_etf_cache (.returns (some [])) q cache := by
  have hne : rows.isEmpty = false := by
    cases rows with
    | nil => exact absurd rfl h
    | cons a t => rfl
  refine ⟨?_, ?_, fun msg => ?_, ?_⟩ <;> simp [update_etf_cache, hne]

/-- Claim C4, witness: a one-row primary result is installed with no
secondary call. -/
theorem c4_witness :
    (update_etf_cache
      (.returns (some [⟨['5', '1', '0', '0', '5', '0'], []⟩]))
      (.returns none) none).2 = [Source.primaryEm] :=
  (c4_primary_short_circuit_and_uniform_fallback
    [⟨['5', '1', '0', '0', '5', '0'], []⟩] (.returns none) none
    (by decide)).1

/-- Shape of a standardized THS row: the four explicitly built columns
followed by the six default-filled ones, in order. -/
lemma fill_defaults_ths_base (r : ThsRow) :
    fill_defaults (ths_base_row r) =
      [("名称", r.fund_name), ("最新价", r.current_unit_value),
       ("涨跌幅", to_numeric_coerce r.growth_rate), ("涨跌额", r.growth_value),
       ("开盘价", .num 0), ("最高价", .num 0), ("最低价", .num 0),
       ("昨收", .num 0), ("成交量", .num 0), ("成交额", .num 0)] := by
  simp [fill_defaults, expected_cols, ths_base_row, List.lookup]

/-- Numeric coercion never yields a string value. -/
lemma to_numeric_coerce_ne_str (v : Value) (s : String) :
    to_numeric_coerce v ≠ Value.str s := by
  cases v with
  | num q => simp [to_numeric_coerce]
  | nan => simp [to_numeric_coerce]
  | str s2 =>
    simp only [to_numeric_coerce]
    cases h : parseDecimal s2.data <;> simp

/-- Claim C5: when the primary is unsuccessful and the secondary returns
a non-empty table, the installed snapshot is the standardized secondary
table, and every row of it carries exactly the canonical column set, has
each column absent from the secondary source (open, high, low, previous
close, volume, turnover) defaulted to the number 0, and holds no string
in the change-percent column. -/
theorem c5_secondary_snapshot_canonical
    (p : ProviderOutcome EmRow) (rows : List ThsRow) (cache : Option Snapshot)
    (hp : em_unsuccessful p = true) (h : rows ≠ []) :
    (update_etf_cache p (.returns (some rows)) cache).1 =
      some (standardize_ths rows) ∧
    ∀ e ∈ standardize_ths rows,
      e.2.map Prod.fst =
        ["名称", "最新价", "涨跌幅", "涨跌额", "开盘价", "最高价",
         "最低价", "昨收", "成交量", "成交额"] ∧
      (∀ c ∈ (["开盘价", "最高价", "最低价", "昨收", "成交量",
               "成交额"] : List String), (c, Value.num 0) ∈ e.2) ∧
      (∀ v, ("涨跌幅", v) ∈ e.2 → ∀ s, v ≠ Value.str s) := by
  constructor
  · have hs := try_secondary_eq_some rows h
    cases p with
    | raises msg => simp [update_etf_cache, hs]
    | returns v =>
      cases v with
      | none => simp [update_etf_cache, hs]
      | some prows =>
        simp only [em_unsuccessful] at hp
        simp [update_etf_cache, hp, hs]
  · intro e he
    simp only [standardize_ths, List.mem_map] at he
    obtain ⟨r, _, rfl⟩ := he
    refine ⟨?_, ?_, ?_⟩
    · simp [fill_defaults_ths_base]
    · intro c hc
      rw [fill_defaults_ths_base]
      fin_cases hc <;> simp
    · intro v hv s
      rw [fill_defaults_ths_base] at hv
      simp only [List.mem_cons, List.mem_singleton, Prod.mk.injEq,
        List.not_mem_nil, or_false] at hv
      rcases hv with ⟨h1, h2⟩ | ⟨h1, h2⟩ | ⟨h1, h2⟩ | ⟨h1, h2⟩ | ⟨h1, h2⟩ |
        ⟨h1, h2⟩ | ⟨h1, h2⟩ | ⟨h1, h2⟩ | ⟨h1, h2⟩ | ⟨h1, h2⟩ <;>
        first
          | (exact absurd h1 (by decide))
          | (subst h2; exact to_numeric_coerce_ne_str _ _)

/-- Claim C5, witness: one secondary row with a percentage-string growth
rate is installed as the standardized snapshot. -/
theorem c5_witness :
    em_unsuccessful (ProviderOutcome.returns none) = true ∧
    (update_etf_cache (.returns none)
      (.returns (some [⟨['5', '1', '0', '0', '5', '0'], .str "someEtf",
        .num 1, .str "2.5%", .num 0⟩])) none).1 =
      some (standardize_ths [⟨['5', '1', '0', '0', '5', '0'], .str "someEtf",
        .num 1, .str "2.5%", .num 0⟩]) :=
  ⟨rfl,
   (c5_secondary_snapshot_canonical (.returns none) _ none rfl
     (by decide)).1⟩

/-! ## Helper lemmas on quote-request processing -/

/-- Processing one symbol never touches the ETF snapshot. -/
lemma process_symbol_etf_frame (tt : Bool) (ec : Option Snapshot)
    (fetch : Sym → ProviderOutcome (String × Value)) (st : ServerState)
    (s : Sym) :
    (process_symbol tt ec fetch st s).st.etf_cache_df = st.etf_cache_df := by
  unfold process_symbol
  repeat first | rfl | split

/-- During trading hours, processing one symbol leaves the whole server
state unchanged: the close-price cache is neither read into a result nor
written. -/
lemma process_symbol_true_state (ec : Option Snapshot)
    (fetch : Sym → ProviderOutcome (String × Value)) (st : ServerState)
    (s : Sym) :
    (process_symbol true ec fetch st s).st = st := by
  unfold process_symbol
  repeat first | rfl | split

/-- During trading hours, one symbol triggers exactly one upstream fetch
when it is an equity and none when it is an ETF, regardless of the cache
contents. -/
lemma process_symbol_true_calls (ec : Option Snapshot)
    (fetch : Sym → ProviderOutcome (String × Value)) (st : ServerState)
    (s : Sym) :
    (process_symbol true ec fetch st s).calls =
      if classify_quotes s then [] else [s] := by
  unfold process_symbol classify_quotes
  split
  · split <;> first | rfl | (split <;> rfl)
  · simp only [if_neg ‹¬_›]
    split
    · exact absurd ‹_› (by simp)
    · split <;> first | rfl | (split <;> rfl)

/-- The results of a request are keyed by the requested symbols, in
order. -/
lemma go_results_fst (tt : Bool) (ec : Option Snapshot)
    (fetch : Sym → ProviderOutcome (String × Value)) (symbols : List Sym)
    (st : ServerState) :
    ((get_quotes_go tt ec fetch symbols st).results).map Prod.fst =
      symbols := by
  induction symbols generalizing st with
  | nil => rfl
  | cons s rest ih => simp [get_quotes_go, ih]

/-- A request never touches the ETF snapshot. -/
lemma go_etf_frame (tt : Bool) (ec : Option Snapshot)
    (fetch : Sym → ProviderOutcome (String × Value)) (symbols : List Sym)
    (st : ServerState) :
    (get_quotes_go tt ec fetch symbols st).st.etf_cache_df =
      st.etf_cache_df := by
  induction symbols generalizing st with
  | nil => rfl
  | cons s rest ih =>
    simp only [get_quotes_go]
    rw [ih, process_symbol_etf_frame]

/-- During trading hours a request leaves the server state unchanged. -/
lemma go_true_state (ec : Option Snapshot)
    (fetch : Sym → ProviderOutcome (String × Value)) (symbols : List Sym)
    (st : ServerState) :
    (get_quotes_go true ec fetch symbols st).st = st := by
  induction symbols generalizing st with
  | nil => rfl
  | cons s rest ih =>
    simp only [get_quotes_go]
    rw [process_symbol_true_state, ih]

/-- During trading hours the upstream fetches of a request are exactly
its equity symbols, in order. -/
lemma go_true_calls (ec : Option Snapshot)
    (fetch : Sym → ProviderOutcome (String × Value)) (symbols : List Sym)
    (st : ServerState) :
    (get_quotes_go true ec fetch symbols st).calls =
      symbols.filter (fun s => !(classify_quotes s)) := by
  induction symbols generalizing st with
  | nil => rfl
  | cons s rest ih =>
    simp only [get_quotes_go, List.filter]
    rw [process_symbol_true_calls, ih]
    cases h : classify_quotes s <;> simp [h]

/-- During trading hours each symbol's result is a function of that
symbol and the initial state alone. -/
lemma go_true_results (ec : Option Snapshot)
    (fetch : Sym → ProviderOutcome (String × Value)) (symbols : List Sym)
    (st : ServerState) :
    (get_quotes_go true ec fetch symbols st).results =
      symbols.map (fun s => (s, (process_symbol true ec fetch st s).res)) := by
  induction symbols generalizing st with
  | nil => rfl
  | cons s rest ih =>
    simp only [get_quotes_go, List.map]
    rw [process_symbol_true_state, ih]

/-- Appending a fresh entry to an association list makes it found. -/
lemma lookup_append_self (l : List (Sym × Row)) (k : Sym) (v : Row)
    (h : l.lookup k = none) : (l ++ [(k, v)]).lookup k = some v := by
  induction l with
  | nil => simp
  | cons p t ih =>
    obtain ⟨k2, v2⟩ := p
    simp only [List.lookup] at h
    cases hk : k == k2 with
    | true => simp [hk] at h
    | false =>
      simp only [hk] at h
      simp only [List.cons_append, List.lookup, hk]
      exact ih h

/-- Replacing the entry of one key leaves lookups of other keys alone. -/
lemma lookup_map_replace (sc : StockCache) (k : Sym) (v : Row) (s : Sym)
    (h : (s == k) = false) :
    (sc.map (fun p => if p.1 == k then (k, v) else p)).lookup s =
      sc.lookup s := by
  induction sc with
  | nil => rfl
  | cons p t ih =>
    obtain ⟨k2, v2⟩ := p
    simp only [List.map_cons]
    by_cases h2 : (k2 == k) = true
    · have hk2 : k2 = k := eq_of_beq h2
      subst hk2
      rw [if_pos (beq_self_eq_true k2)]
      simp only [List.lookup, h]
      exact ih
    · rw [if_neg h2]
      simp only [List.lookup]
      cases hs : s == k2 <;> simp only [hs]
      exact ih

/-- Appending an entry for another key leaves a lookup alone. -/
lemma lookup_append_ne (sc : StockCache) (k : Sym) (v : Row) (s : Sym)
    (h : (s == k) = false) :
    (sc ++ [(k, v)]).lookup s = sc.lookup s := by
  induction sc with
  | nil => simp [List.lookup, h]
  | cons p t ih =>
    obtain ⟨k2, v2⟩ := p
    cases hs : s == k2 <;> simp [List.lookup, hs, ih]

/-- Storing a quote for one symbol leaves lookups of other symbols
alone. -/
lemma lookup_storeQuote_ne (sc : StockCache) (k : Sym) (v : Row) (s : Sym)
    (h : (s == k) = false) :
    (storeQuote sc k v).lookup s = sc.lookup s := by
  unfold storeQuote
  split
  · exact lookup_map_replace sc k v s h
  · exact lookup_append_ne sc k v s h

/-- One loop iteration issues exactly one upstream fetch when the symbol
is pending and none otherwise, in both session modes. -/
lemma process_symbol_calls_pending (tt : Bool) (ec : Option Snapshot)
    (fetch : Sym → ProviderOutcome (String × Value)) (st : ServerState)
    (s : Sym) :
    (process_symbol tt ec fetch st s).calls =
      if is_pending tt st.stock_cache s then [s] else [] := by
  unfold process_symbol is_pending classify_quotes
  by_cases hc : isEtfCode (code_only_quotes s)
  · cases ec with
    | none => simp [hc]
    | some snap => cases h : snap.lookup (code_only_quotes s) <;> simp [hc, h]
  · cases tt with
    | true =>
      cases hf : fetch s with
      | raises m => simp [hc, hf]
      | returns v =>
        cases v with
        | none => simp [hc, hf]
        | some rows => cases he : rows.isEmpty <;> simp [hc, hf, he]
    | false =>
      by_cases hm : (st.stock_cache.lookup s).isSome
      · simp [hc, hm]
      · cases hf : fetch s with
        | raises m => simp [hc, hm, hf]
        | returns v =>
          cases v with
          | none => simp [hc, hm, hf]
          | some rows => cases he : rows.isEmpty <;> simp [hc, hm, hf, he]

/-- A pending symbol issues its one fetch. -/
lemma process_symbol_calls_of_pending (tt : Bool) (ec : Option Snapshot)
    (fetch : Sym → ProviderOutcome (String × Value)) (st : ServerState)
    (s : Sym) (hp : is_pending tt st.stock_cache s = true) :
    (process_symbol tt ec fetch st s).calls = [s] := by
  rw [process_symbol_calls_pending, hp]
  rfl

/-- A non-pending symbol issues no fetch. -/
lemma process_symbol_calls_of_not_pending (tt : Bool) (ec : Option Snapshot)
    (fetch : Sym → ProviderOutcome (String × Value)) (st : ServerState)
    (s : Sym) (hp : is_pending tt st.stock_cache s = false) :
    (process_symbol tt ec fetch st s).calls = [] := by
  rw [process_symbol_calls_pending, hp]
  rfl

/-- A non-pending symbol (ETF, or an off-hours cache hit) leaves the
server state unchanged. -/
lemma process_symbol_not_pending_state (tt : Bool) (ec : Option Snapshot)
    (fetch : Sym → ProviderOutcome (String × Value)) (st : ServerState)
    (s : Sym) (hp : is_pending tt st.stock_cache s = false) :
    (process_symbol tt ec fetch st s).st = st := by
  unfold is_pending at hp
  unfold process_symbol
  by_cases hc : isEtfCode (code_only_quotes s)
  · cases ec with
    | none => simp [hc]
    | some snap => cases h : snap.lookup (code_only_quotes s) <;> simp [hc, h]
  · have hc2 : classify_quotes s = false := by
      simpa [classify_quotes] using hc
    simp only [hc2, Bool.not_false, Bool.true_and] at hp
    obtain ⟨ht, hm⟩ := by simpa using hp
    subst ht
    simp [hc, hm]

/-- A pending symbol whose fetch succeeds with a non-empty table yields
a success entry holding exactly that table. -/
lemma process_symbol_pending_success (tt : Bool) (ec : Option Snapshot)
    (fetch : Sym → ProviderOutcome (String × Value)) (st : ServerState)
    (s : Sym) (rows : List (String × Value))
    (hp : is_pending tt st.stock_cache s = true)
    (hf : fetch s = .returns (some rows)) (hne : rows ≠ []) :
    (process_symbol tt ec fetch st s).res = .success rows := by
  have hemp : rows.isEmpty = false := by
    cases rows with
    | nil => exact absurd rfl hne
    | cons a t => rfl
  unfold is_pending at hp
  have hc : classify_quotes s = false := by
    cases h : classify_quotes s with
    | false => rfl
    | true => simp [h] at hp
  have hc2 : isEtfCode (code_only_quotes s) = false := hc
  unfold process_symbol
  cases tt with
  | true => simp [hc2, hf, hemp]
  | false =>
    have hm : (st.stock_cache.lookup s).isSome = false := by
      simpa [hc] using hp
    simp [hc2, hm, hf, hemp]

/-- Processing one symbol preserves the cached quote of every other
symbol. -/
lemma process_symbol_lookup_preserved (tt : Bool) (ec : Option Snapshot)
    (fetch : Sym → ProviderOutcome (String × Value)) (st : ServerState)
    (s x : Sym) (h : (x == s) = false) :
    ((process_symbol tt ec fetch st s).st.stock_cache).lookup x =
      st.stock_cache.lookup x := by
  unfold process_symbol
  repeat first | rfl | split
  all_goals exact lookup_storeQuote_ne _ _ _ _ h

/-- A loop iteration that produces an error entry leaves the server
state unchanged. -/
lemma process_symbol_error_state (tt : Bool) (ec : Option Snapshot)
    (fetch : Sym → ProviderOutcome (String × Value)) (st : ServerState)
    (s : Sym) (msg : String)
    (h : (process_symbol tt ec fetch st s).res = .error msg) :
    (process_symbol tt ec fetch st s).st = st := by
  unfold process_symbol at h ⊢
  by_cases hc : isEtfCode (code_only_quotes s) = true
  · cases ec with
    | none => simp [hc]
    | some snap => cases hl : snap.lookup (code_only_quotes s) <;> simp [hc, hl]
  · rw [if_neg hc] at h ⊢
    by_cases h2 : tt = false ∧ (st.stock_cache.lookup s).isSome = true
    · rw [if_pos h2]
    · rw [if_neg h2] at h ⊢
      cases hf : fetch s with
      | raises m => rfl
      | returns v =>
        cases v with
        | none => rfl
        | some rows =>
          cases he : rows.isEmpty with
          | true => simp [he]
          | false =>
            rw [hf] at h
            have hne : rows ≠ [] := by simpa using he
            cases htt : tt with
            | true => simp [he]
            | false => simp [he, hne, htt] at h

/-- The request loop over a concatenation is the loop over the first
part followed by the loop over the second part from the reached state. -/
lemma go_append (tt : Bool) (ec : Option Snapshot)
    (fetch : Sym → ProviderOutcome (String × Value)) (xs ys : List Sym)
    (st : ServerState) :
    get_quotes_go tt ec fetch (xs ++ ys) st =
      ⟨(get_quotes_go tt ec fetch xs st).results ++
        (get_quotes_go tt ec fetch ys
          (get_quotes_go tt ec fetch xs st).st).results,
       (get_quotes_go tt ec fetch ys
         (get_quotes_go tt ec fetch xs st).st).st,
       (get_quotes_go tt ec fetch xs st).calls ++
        (get_quotes_go tt ec fetch ys
          (get_quotes_go tt ec fetch xs st).st).calls⟩ := by
  induction xs generalizing st with
  | nil => rfl
  | cons a xs ih =>
    simp only [List.cons_append, get_quotes_go, List.append_eq]
    rw [ih]
    simp [List.append_assoc]

/-- Off-hours, a request whose equity symbols are pairwise distinct
issues exactly one upstream fetch per equity symbol missing from the
request-start close-price cache. -/
lemma go_false_calls (ec : Option Snapshot)
    (fetch : Sym → ProviderOutcome (String × Value)) :
    ∀ (symbols : List Sym) (st : ServerState),
      (symbols.filter (fun x => !(classify_quotes x))).Nodup →
      (get_quotes_go false ec fetch symbols st).calls =
        symbols.filter (fun x => is_pending false st.stock_cache x) := by
  intro symbols
  induction symbols with
  | nil => intro st _; rfl
  | cons s rest ih =>
    intro st hnd
    simp only [get_quotes_go]
    by_cases hc : classify_quotes s = true
    · have hp : is_pending false st.stock_cache s = false := by
        simp [is_pending, hc]
      have hnd2 : (rest.filter (fun x => !(classify_quotes x))).Nodup := by
        have he : (s :: rest).filter (fun x => !(classify_quotes x)) =
            rest.filter (fun x => !(classify_quotes x)) := by
          simp [List.filter_cons, hc]
        rwa [he] at hnd
      rw [process_symbol_calls_of_not_pending false ec fetch st s hp,
        process_symbol_not_pending_state false ec fetch st s hp,
        ih st hnd2, List.filter_cons]
      simp [hp]
    · have hcb : classify_quotes s = false := by simpa using hc
      have he : (s :: rest).filter (fun x => !(classify_quotes x)) =
          s :: rest.filter (fun x => !(classify_quotes x)) := by
        simp [List.filter_cons, hcb]
      rw [he] at hnd
      obtain ⟨hmem, hnd2⟩ := List.nodup_cons.mp hnd
      by_cases hm : (st.stock_cache.lookup s).isSome = true
      · have hp : is_pending false st.stock_cache s = false := by
          simp [is_pending, hcb, hm]
        rw [process_symbol_calls_of_not_pending false ec fetch st s hp,
          process_symbol_not_pending_state false ec fetch st s hp,
          ih st hnd2, List.filter_cons]
        simp [hp]
      · have hm2 : (st.stock_cache.lookup s).isSome = false := by
          cases h3 : (st.stock_cache.lookup s).isSome with
          | false => rfl
          | true => exact absurd h3 hm
        have hp : is_pending false st.stock_cache s = true := by
          simp [is_pending, hcb, hm2]
        rw [process_symbol_calls_of_pending false ec fetch st s hp,
          ih _ hnd2, List.filter_cons]
        have hagree : ∀ x ∈ rest,
            is_pending false
              ((process_symbol false ec fetch st s).st.stock_cache) x =
            is_pending false st.stock_cache x := by
          intro x hx
          by_cases hcx : classify_quotes x = true
          · simp [is_pending, hcx]
          · have hcxb : classify_quotes x = false := by simpa using hcx
            have hxf : x ∈ rest.filter (fun y => !(classify_quotes y)) := by
              simp [List.mem_filter, hx, hcxb]
            have hne : x ≠ s := fun hxe => hmem (hxe ▸ hxf)
            have hbeq : (x == s) = false := by
              simpa using hne
            simp [is_pending,
              process_symbol_lookup_preserved false ec fetch st s x hbeq]
        rw [List.filter_congr hagree]
        simp [hp]

/-! ## Claim theorems: quote requests -/

/-- Claim C1, counterexample: a trading-hours request for two pending
equity symbols issues two upstream calls — one `stock_bid_ask_em` call
per symbol — not one bulk call covering the market. -/
theorem c1_counterexample :
    (get_quotes true const_fetch ⟨none, []⟩
      [['6', '0', '0', '0', '0', '0'], ['6', '0', '0', '0', '0', '1']]).calls =
      [['6', '0', '0', '0', '0', '0'], ['6', '0', '0', '0', '0', '1']] ∧
    ((get_quotes true const_fetch ⟨none, []⟩
      [['6', '0', '0', '0', '0', '0'],
       ['6', '0', '0', '0', '0', '1']]).calls).length ≠ 1 ∧
    (get_quotes true const_fetch ⟨none, []⟩
      [['6', '0', '0', '0', '0', '0'], ['6', '0', '0', '0', '0', '1']]).results =
      [(['6', '0', '0', '0', '0', '0'], .success [("最新", Value.num 10)]),
       (['6', '0', '0', '0', '0', '1'],
        .success [("最新", Value.num 10)])] := by decide

/-- Claim C1 as amended: pending symbols are fetched one upstream call
each, never in bulk, in either session mode. A loop iteration issues
exactly one `stock_bid_ask_em` call when its symbol is pending (an
equity not served from the close-price cache) and none otherwise; a
pending symbol whose own fetch succeeds non-empty gets exactly that
fetch's rows as its entry; a trading-hours request therefore calls the
provider once per equity symbol, and an off-hours request with pairwise
distinct equity symbols once per equity symbol missing from the
request-start cache (a duplicate is served by its first occurrence's
write-through). -/
theorem c1_per_symbol_upstream_fetch
    (tt : Bool) (ec : Option Snapshot)
    (fetch : Sym → ProviderOutcome (String × Value)) (st : ServerState)
    (symbols : List Sym) (s : Sym) (rows : List (String × Value)) :
    ((process_symbol tt ec fetch st s).calls =
      if is_pending tt st.stock_cache s then [s] else []) ∧
    (is_pending tt st.stock_cache s = true →
      fetch s = .returns (some rows) → rows ≠ [] →
      (process_symbol tt ec fetch st s).res = .success rows) ∧
    ((get_quotes true fetch st symbols).calls =
      symbols.filter (fun x => !(classify_quotes x))) ∧
    ((symbols.filter (fun x => !(classify_quotes x))).Nodup →
      (get_quotes false fetch st symbols).calls =
        symbols.filter (fun x => is_pending false st.stock_cache x)) :=
  ⟨process_symbol_calls_pending tt ec fetch st s,
   fun hp hf hne => process_symbol_pending_success tt ec fetch st s rows hp hf hne,
   go_true_calls st.etf_cache_df fetch symbols st,
   fun hnd => go_false_calls st.etf_cache_df fetch symbols st hnd⟩

/-- Claim C1 (amended), witness: an off-hours pending symbol's entry is
its own fetch's row, and a trading-hours two-equity request issues two
calls. -/
theorem c1_witness :
    (process_symbol false none const_fetch ⟨none, []⟩
      ['6', '0', '0', '0', '0', '0']).res =
      SymResult.success [("最新", Value.num 10)] ∧
    (get_quotes false const_fetch ⟨none, []⟩
      [['6', '0', '0', '0', '0', '0'], ['6', '0', '0', '0', '0', '1']]).calls =
      [['6', '0', '0', '0', '0', '0'], ['6', '0', '0', '0', '0', '1']] :=
  ⟨(c1_per_symbol_upstream_fetch false none const_fetch ⟨none, []⟩ []
      ['6', '0', '0', '0', '0', '0'] [("最新", Value.num 10)]).2.1
      (by decide) rfl (by decide),
   ((c1_per_symbol_upstream_fetch false none const_fetch ⟨none, []⟩
      [['6', '0', '0', '0', '0', '0'], ['6', '0', '0', '0', '0', '1']]
      [] []).2.2.2 (by decide)).trans (by decide)⟩

/-- Claim C6: every requested symbol receives exactly one result entry,
in request order; during trading hours each symbol's entry is a function
of that symbol and the request-start state alone; in either session
mode an iteration producing an error entry leaves the server state
unchanged, and consequently a request containing a symbol whose
iteration errors yields exactly the results of the request without that
symbol, with the single per-symbol error entry inserted at its position
— one symbol's failure affects that symbol's entry only, and never
aborts the batch. -/
theorem c6_per_symbol_results
    (tt : Bool) (fetch : Sym → ProviderOutcome (String × Value))
    (st : ServerState) (symbols pre post : List Sym) (s : Sym)
    (msg : String) :
    ((get_quotes tt fetch st symbols).results).map Prod.fst = symbols ∧
    ((get_quotes true fetch st symbols).results =
      symbols.map
        (fun x => (x, (process_symbol true st.etf_cache_df fetch st x).res))) ∧
    (∀ ec st2, (process_symbol tt ec fetch st2 s).res = .error msg →
      (process_symbol tt ec fetch st2 s).st = st2) ∧
    ((process_symbol tt st.etf_cache_df fetch
        (get_quotes tt fetch st pre).st s).res = .error msg →
      (get_quotes tt fetch st (pre ++ s :: post)).results =
        (get_quotes tt fetch st pre).results ++
          (s, SymResult.error msg) ::
          (get_quotes tt fetch (get_quotes tt fetch st pre).st post).results) ∧
    ((get_quotes tt fetch st (pre ++ post)).results =
      (get_quotes tt fetch st pre).results ++
        (get_quotes tt fetch (get_quotes tt fetch st pre).st post).results) := by
  refine ⟨go_results_fst tt st.etf_cache_df fetch symbols st,
    go_true_results st.etf_cache_df fetch symbols st,
    fun ec st2 h => process_symbol_error_state tt ec fetch st2 s msg h,
    ?_, ?_⟩
  · intro herr
    simp only [get_quotes] at herr ⊢
    rw [go_append]
    simp only [get_quotes_go]
    rw [process_symbol_error_state tt st.etf_cache_df fetch
        (get_quotes_go tt st.etf_cache_df fetch pre st).st s msg herr,
      herr, go_etf_frame]
  · simp only [get_quotes]
    rw [go_append, go_etf_frame]

/-- Claim C6, witness: off-hours, a middle symbol whose fetch raises
gets its own error entry while the surrounding symbols' entries are
those of the request without it. -/
theorem c6_witness :
    (get_quotes false raising_fetch ⟨none, []⟩
      [['6', '0', '0', '0', '0', '1'], ['6', '0', '0', '0', '0', '2'],
       ['6', '0', '0', '0', '0', '3']]).results =
      (get_quotes false raising_fetch ⟨none, []⟩
        [['6', '0', '0', '0', '0', '1']]).results ++
        (['6', '0', '0', '0', '0', '2'], SymResult.error "unreachable") ::
        (get_quotes false raising_fetch
          (get_quotes false raising_fetch ⟨none, []⟩
            [['6', '0', '0', '0', '0', '1']]).st
          [['6', '0', '0', '0', '0', '3']]).results :=
  (c6_per_symbol_results false raising_fetch ⟨none, []⟩ []
    [['6', '0', '0', '0', '0', '1']] [['6', '0', '0', '0', '0', '3']]
    ['6', '0', '0', '0', '0', '2'] "unreachable").2.2.2.1 (by decide)

/-- Claim C7: outside trading hours an equity symbol fetched live with a
non-empty result is stored in the close-price cache, and an immediately
repeated request for it — under any provider behavior whatsoever — is
served from the cache with the very same data and no upstream call. -/
theorem c7_write_through_then_cache_hit
    (fetch fetch2 : Sym → ProviderOutcome (String × Value))
    (st : ServerState) (symbol : Sym) (rows : List (String × Value))
    (hcls : isEtfCode (code_only_quotes symbol) = false)
    (hmiss : st.stock_cache.lookup symbol = none)
    (hf : fetch symbol = .returns (some rows)) (hrows : rows ≠ []) :
    (get_quotes false fetch st [symbol]).results =
      [(symbol, .success rows)] ∧
    (get_quotes false fetch st [symbol]).calls = [symbol] ∧
    (get_quotes false fetch2 (get_quotes false fetch st [symbol]).st
      [symbol]).results = [(symbol, .success rows)] ∧
    (get_quotes false fetch2 (get_quotes false fetch st [symbol]).st
      [symbol]).calls = [] := by
  have hemp : rows.isEmpty = false := by
    cases rows with
    | nil => exact absurd rfl hrows
    | cons a t => rfl
  have hstep : process_symbol false st.etf_cache_df fetch st symbol =
      ⟨.success rows,
       { st with stock_cache := st.stock_cache ++ [(symbol, rows)] },
       [symbol]⟩ := by
    unfold process_symbol
    simp [hcls, hmiss, hf, hemp, storeQuote]
  have hb1 : get_quotes false fetch st [symbol] =
      ⟨[(symbol, .success rows)],
       { st with stock_cache := st.stock_cache ++ [(symbol, rows)] },
       [symbol]⟩ := by
    simp [get_quotes, get_quotes_go, hstep]
  have hlk : (st.stock_cache ++ [(symbol, rows)]).lookup symbol = some rows :=
    lookup_append_self _ _ _ hmiss
  have hstep2 : process_symbol false st.etf_cache_df fetch2
      { st with stock_cache := st.stock_cache ++ [(symbol, rows)] } symbol =
      ⟨.success rows,
       { st with stock_cache := st.stock_cache ++ [(symbol, rows)] },
       []⟩ := by
    unfold process_symbol
    simp [hcls, hlk]
  refine ⟨?_, ?_, ?_, ?_⟩ <;> rw [hb1] <;>
    simp [get_quotes, get_quotes_go, hstep2]

/-- Claim C7, witness: a cold-cache off-hours fetch of an equity symbol
is replayed from the cache even against a provider that now raises. -/
theorem c7_witness :
    (get_quotes false const_fetch ⟨none, []⟩
      [['6', '0', '0', '0', '0', '0']]).calls = [['6', '0', '0', '0', '0', '0']] ∧
    (get_quotes false raising_fetch
      (get_quotes false const_fetch ⟨none, []⟩
        [['6', '0', '0', '0', '0', '0']]).st
      [['6', '0', '0', '0', '0', '0']]).results =
      [(['6', '0', '0', '0', '0', '0'], .success [("最新", Value.num 10)])] ∧
    (get_quotes false raising_fetch
      (get_quotes false const_fetch ⟨none, []⟩
        [['6', '0', '0', '0', '0', '0']]).st
      [['6', '0', '0', '0', '0', '0']]).calls = [] := by
  have h := c7_write_through_then_cache_hit const_fetch raising_fetch
    ⟨none, []⟩ ['6', '0', '0', '0', '0', '0'] [("最新", Value.num 10)]
    (by decide) rfl rfl (by decide)
  exact ⟨h.2.1, h.2.2.1, h.2.2.2⟩

/-- Claim C8: during trading hours a request never reads the close-price
cache (every equity symbol, cached or not, triggers its own live fetch)
and never writes it (the cache after the request is exactly the cache
before it). -/
theorem c8_trade_hours_bypass_close_cache
    (fetch : Sym → ProviderOutcome (String × Value)) (st : ServerState)
    (symbols : List Sym) :
    (get_quotes true fetch st symbols).st.stock_cache = st.stock_cache ∧
    (get_quotes true fetch st symbols).calls =
      symbols.filter (fun s => !(classify_quotes s)) := by
  constructor
  · show (get_quotes_go true st.etf_cache_df fetch symbols st).st.stock_cache
      = st.stock_cache
    rw [go_true_state]
  · exact go_true_calls st.etf_cache_df fetch symbols st

/-- Claim C10: a quote request never changes the ETF snapshot (it only
copies it out), the session-open clear touches only the close-price
cache, and the scheduled ETF refresh touches only the ETF snapshot. -/
theorem c10_frame_of_shared_state
    (tt : Bool) (fetch : Sym → ProviderOutcome (String × Value))
    (st : ServerState) (symbols : List Sym)
    (p : ProviderOutcome EmRow) (q : ProviderOutcome ThsRow) :
    (get_quotes tt fetch st symbols).st.etf_cache_df = st.etf_cache_df ∧
    (clear_stock_cache st).etf_cache_df = st.etf_cache_df ∧
    (update_etf_cache_state p q st).stock_cache = st.stock_cache :=
  ⟨go_etf_frame tt st.etf_cache_df fetch symbols st, rfl, rfl⟩

/-! ## Claim theorems: symbol classification across endpoints -/

/-- A head character different from the pattern's first character is
kept and scanning continues. -/
lemma removeSub2_cons_ne (a b c : Char) (l : Sym) (h : c ≠ a) :
    removeSub2 a b (c :: l) = c :: removeSub2 a b l := by
  cases l with
  | nil => rfl
  | cons d rest => simp [removeSub2, h]

/-- Two head characters that do not form the pattern keep the head and
continue from the second character. -/
lemma removeSub2_cons2_ne (a b c d : Char) (l : Sym)
    (h : ¬(c = a ∧ d = b)) :
    removeSub2 a b (c :: d :: l) = c :: removeSub2 a b (d :: l) := by
  simp [removeSub2, h]

/-- A matched pattern occurrence at the head is dropped. -/
lemma removeSub2_cons_match (a b : Char) (l : Sym) :
    removeSub2 a b (a :: b :: l) = removeSub2 a b l := by
  simp [removeSub2]

/-- A string containing no occurrence of the pattern's first character
is unchanged. -/
lemma removeSub2_no_head (a b : Char) (l : Sym) (h : ∀ c ∈ l, c ≠ a) :
    removeSub2 a b l = l := by
  induction l with
  | nil => rfl
  | cons c rest ih =>
    rw [removeSub2_cons_ne a b c rest (h c (List.mem_cons_self c rest))]
    rw [ih (fun x hx => h x (List.mem_cons_of_mem _ hx))]

/-- Claim C9, counterexample: the symbol string "sz51" is classified as
an ETF by the quote path (stripping the market prefix leaves "51") but
as an equity by the history path (its last six characters are "sz51",
which has no ETF prefix). -/
theorem c9_counterexample :
    classify_quotes ['s', 'z', '5', '1'] = true ∧
    classify_history ['s', 'z', '5', '1'] = false := by decide

/-- Claim C9 as amended: for every symbol consisting of a six-digit code
optionally preceded by the market prefix "sh" or "sz", the quote path
and the history path assign the same instrument class. -/
theorem c9_classification_paths_agree (code : Sym) (h6 : code.length = 6)
    (hdig : ∀ c ∈ code, c.isDigit = true) (symbol : Sym)
    (hsym : symbol = code ∨ symbol = 's' :: 'h' :: code ∨
      symbol = 's' :: 'z' :: code) :
    classify_quotes symbol = classify_history symbol := by
  have hns : ∀ c ∈ code, c ≠ 's' := by
    intro c hc he
    subst he
    exact absurd (hdig _ hc) (by decide)
  have hsh : removeSub2 's' 'h' code = code := removeSub2_no_head _ _ _ hns
  have hsz : removeSub2 's' 'z' code = code := removeSub2_no_head _ _ _ hns
  rcases hsym with rfl | rfl | rfl
  · simp [classify_quotes, classify_history, code_only_quotes,
      code_only_history, hsh, hsz, h6]
  · have h1 : removeSub2 's' 'h' ('s' :: 'h' :: code) = code := by
      rw [removeSub2_cons_match, hsh]
    simp [classify_quotes, classify_history, code_only_quotes,
      code_only_history, h1, hsz, h6]
  · have h1 : removeSub2 's' 'h' ('s' :: 'z' :: code) = 's' :: 'z' :: code := by
      rw [removeSub2_cons2_ne 's' 'h' 's' 'z' code (by decide),
        removeSub2_cons_ne 's' 'h' 'z' code (by decide), hsh]
    have h2 : removeSub2 's' 'z' ('s' :: 'z' :: code) = code := by
      rw [removeSub2_cons_match, hsz]
    simp [classify_quotes, classify_history, code_only_quotes,
      code_only_history, h1, h2, h6]

/-- Claim C9 (amended), witness: both paths agree on "sh510050". -/
theorem c9_witness :
    classify_quotes ['s', 'h', '5', '1', '0', '0', '5', '0'] =
      classify_history ['s', 'h', '5', '1', '0', '0', '5', '0'] :=
  c9_classification_paths_agree ['5', '1', '0', '0', '5', '0'] (by decide)
    (by decide) _ (Or.inr (Or.inl rfl))

end QuotesApi
